import Mathlib

/-!
Verification development for the IoT Cyber Range lab manager
(`lab_manager.py`, `scan_library.py`).

The Python sources are shallowly embedded: pure helpers become Lean
functions, the stateful manager becomes explicit state passing over a
`Host`/`MState` record, OS effects (TAP creation, overlay creation,
log open, child spawn, RNG) are driven by an explicit `SpawnEnv`
oracle recording which host command succeeds and which random bytes
the generator yields.  Fallible paths return `Except`, and an error
carries the post-failure state so that leaked host artifacts are
observable.
-/

namespace IotVlab

/-! ### String helpers (ASCII-level embeddings of the Python string ops) -/

/-- Numeric value of a list of decimal digit characters, as `int(...)`
computes it for a digit-only string. -/
def digitsVal (cs : List Char) : Nat :=
  cs.foldl (fun a c => a * 10 + (c.toNat - 48)) 0

/-- Embedding of `str.lower()` (ASCII inputs only, as MAC strings are). -/
def lowerStr (s : String) : String := ⟨s.data.map Char.toLower⟩

/-- Worker for `tokens`: split on whitespace runs, dropping empties,
accumulating the current word reversed. -/
def splitWsAux : List Char → List Char → List (List Char)
  | [], acc => if acc.isEmpty then [] else [acc.reverse]
  | c :: cs, acc =>
    if c.isWhitespace then
      if acc.isEmpty then splitWsAux cs []
      else acc.reverse :: splitWsAux cs []
    else splitWsAux cs (c :: acc)

/-- Embedding of Python `str.split()` with no argument: split on runs of
whitespace and return the non-empty tokens. -/
def tokens (s : String) : List String :=
  (splitWsAux s.data []).map fun cs => ⟨cs⟩

/-- Lowercase hex digit for a value below 16. -/
def hexChar (n : Nat) : Char :=
  if n < 10 then Char.ofNat (48 + n) else Char.ofNat (87 + n)

/-- Embedding of `"{:02x}".format(b)` for a byte. -/
def hex2 (n : Nat) : String := ⟨[hexChar (n / 16 % 16), hexChar (n % 16)]⟩

/-! ### Firmware library (`scan_library.py`) -/

/-- A firmware configuration as stored in a library `config.json`
(the fields `lab_manager.py` consumes; optional keys are `Option`). -/
structure Cfg where
  id : String
  name : Option String
  arch : String
  qemu_machine : Option String
  memory : Option String
  kernel : String
  rootfs : Option String
  initrd : Option String
  multi_homed : Bool
deriving DecidableEq, Repr, Inhabited

/-- One on-disk library entry: the directory holding a `config.json`
together with its parsed contents. -/
structure Entry where
  dir : String
  cfg : Cfg
deriving DecidableEq, Repr, Inhabited

/-- The on-disk path of an entry's config file, the sort key of
`sorted(LIBRARY_DIR.rglob("config.json"))`. -/
def cfgPath (e : Entry) : String := e.dir ++ "/config.json"

/-- A firmware descriptor as returned by `scan()`: the parsed config
plus the `_dir` field. -/
structure Fw extends Cfg where
  dir : String
deriving DecidableEq, Repr, Inhabited

/-- Lexicographic comparison of character lists by code point — the
order in which Python compares path strings. -/
def lexLe : List Char → List Char → Bool
  | [], _ => true
  | _ :: _, [] => false
  | a :: as, b :: bs =>
    if a.toNat < b.toNat then true
    else if b.toNat < a.toNat then false
    else lexLe as bs

/-- Lexicographic string comparison (Python `str` order for ASCII paths). -/
def pathLe (a b : String) : Bool := lexLe a.data b.data

/-- Insert an entry into a list sorted by config path. -/
def insertEnt (e : Entry) : List Entry → List Entry
  | [] => [e]
  | a :: t => if pathLe (cfgPath e) (cfgPath a) then e :: a :: t else a :: insertEnt e t

/-- Sort library entries by config-file path (the stable sort performed by
`sorted(...)` over the `rglob` results; paths are distinct on disk, so any
sort by the same key computes the same list). -/
def sortEntries : List Entry → List Entry
  | [] => []
  | a :: t => insertEnt a (sortEntries t)

/-- Embedding of `scan()`: configs in path-sorted order, each with its
`_dir` attached. -/
def scan (lib : List Entry) : List Fw :=
  (sortEntries lib).map fun e => { toCfg := e.cfg, dir := e.dir }

/-- Embedding of `LabManager._load_firmware`: first config whose `id`
matches, `none` standing for the raised `ValueError`. -/
def load_firmware (lib : List Entry) (fid : String) : Option Fw :=
  (scan lib).find? fun fw => fw.id == fid

/-! ### TAP allocation (`LabManager._get_next_tap`) -/

/-- The set of indices `n` with an interface literally named `tap{n}`
(`name.startswith("tap") and name[3:].isdigit()`). -/
def tapIndices (ifaces : List String) : List Nat :=
  ifaces.filterMap fun n =>
    let cs := n.data
    if cs.take 3 = ['t', 'a', 'p'] ∧ cs.drop 3 ≠ [] ∧ (cs.drop 3).all Char.isDigit
    then some (digitsVal (cs.drop 3)) else none

/-- Fuel-driven version of `idx = 0; while idx in existing: idx += 1`;
the fuel is a termination artifact and is always sufficient below. -/
def leastFreeAux (ex : List Nat) : Nat → Nat → Nat
  | 0, i => i
  | fuel + 1, i => if i ∈ ex then leastFreeAux ex fuel (i + 1) else i

/-- Least natural number not occurring in `ex`, computed by the
while-loop of `_get_next_tap`. -/
def leastFree (ex : List Nat) : Nat :=
  leastFreeAux ex (ex.foldr Nat.max 0 + 2) 0

/-- Embedding of `LabManager._get_next_tap`: the suffix is appended to the
chosen name but plays no part in the enumeration of existing indices. -/
def get_next_tap (ifaces : List String) (suffix : String) : String :=
  "tap" ++ toString (leastFree (tapIndices ifaces)) ++ suffix

/-! ### MAC generation -/

/-- The fixed Stellaris SoC MAC (`LabManager.STELLARIS_MAC`). -/
def STELLARIS_MAC : String := "00:00:94:00:83:00"

/-- Embedding of `LabManager._generate_mac` applied to the three bytes the
RNG yielded: `"52:54:00:{:02x}:{:02x}:{:02x}"`. -/
def mkMac (a b c : Nat) : String :=
  "52:54:00:" ++ hex2 a ++ ":" ++ hex2 b ++ ":" ++ hex2 c

/-! ### Command builder (`LabManager._build_qemu_cmd`) -/

/-- Configuration errors the command builder can raise (`ValueError`s). -/
inductive CfgErr where
  | badArch (arch : String)
  | multiNotSupported (arch : String)
deriving DecidableEq, Repr

/-- Embedding of `LabManager._build_qemu_cmd`.  The `ARCH_PROFILES` dict is
inlined: profile existence is the four-arch membership test,
`supports_multi` is true exactly for `mipsel` and `armel`, and the
per-profile `qemu_bin`/`append`/`drive` data appears in the branch for the
corresponding architecture. -/
def build_qemu_cmd (fw : Fw) (tap mac : String) (overlay_path : Option String)
    (tap_int mac_int : Option String) : Except CfgErr (List String) :=
  let fw_dir := fw.dir
  let kernel := fw_dir ++ "/" ++ fw.kernel
  let rootfs := fw.rootfs.map fun r => fw_dir ++ "/" ++ r
  let arch := fw.arch
  let machine := fw.qemu_machine.getD "malta"
  let mem := fw.memory.getD "256"
  -- `drive_file = overlay_path or rootfs` (rendered "None" when both absent,
  -- exactly as the f-string would).
  let drive_file := match overlay_path with
    | some o => o
    | none => match rootfs with
      | some r => r
      | none => "None"
  if ¬ (arch = "mipsel" ∨ arch = "armel" ∨ arch = "cortex-m3" ∨ arch = "riscv32") then
    .error (.badArch arch)
  else
    let supports_multi := arch == "mipsel" || arch == "armel"
    let net_single : List String :=
      if arch == "mipsel" then
        ["-netdev", "tap,id=net0,ifname=" ++ tap ++ ",script=no,downscript=no",
         "-device", "e1000,netdev=net0,mac=" ++ mac]
      else if arch == "armel" then
        ["-net", "nic,macaddr=" ++ mac,
         "-net", "tap,ifname=" ++ tap ++ ",script=no,downscript=no"]
      else []
    let netRes : Except CfgErr (List String) :=
      match tap_int, mac_int with
      | some ti, some mi =>
        if supports_multi then
          if arch == "mipsel" then
            .ok ["-netdev", "tap,id=net0,ifname=" ++ tap ++ ",script=no,downscript=no",
                 "-device", "e1000,netdev=net0,mac=" ++ mac,
                 "-netdev", "tap,id=net1,ifname=" ++ ti ++ ",script=no,downscript=no",
                 "-device", "e1000,netdev=net1,mac=" ++ mi]
          else if arch == "armel" then
            .ok ["-net", "nic,macaddr=" ++ mac,
                 "-net", "tap,ifname=" ++ tap ++ ",script=no,downscript=no",
                 "-net", "nic,macaddr=" ++ mi,
                 "-net", "tap,ifname=" ++ ti ++ ",script=no,downscript=no"]
          else .error (.multiNotSupported arch)
        else .ok net_single
      | _, _ => .ok net_single
    match netRes with
    | .error e => .error e
    | .ok net_config =>
      if arch == "cortex-m3" then
        .ok ["qemu-system-arm", "-M", machine, "-kernel", kernel, "-nographic",
             "-net", "nic,model=stellaris",
             "-net", "tap,ifname=" ++ tap ++ ",script=no,downscript=no"]
      else if arch == "riscv32" then
        .ok ["qemu-system-riscv32", "-M", machine, "-bios", "none", "-m", "256",
             "-kernel", kernel, "-nographic",
             "-netdev", "tap,id=net0,ifname=" ++ tap ++ ",script=no,downscript=no",
             "-device", "virtio-net-device,netdev=net0,mac=" ++ mac]
      else
        let qemu_bin := if arch == "mipsel" then "qemu-system-mipsel" else "qemu-system-arm"
        let app := if arch == "mipsel" then "root=/dev/sda1 console=ttyS0"
                   else "root=/dev/sda1 console=ttyAMA0"
        let cmd := [qemu_bin, "-M", machine, "-kernel", kernel,
                    "-drive", "file=" ++ drive_file ++ ",format=qcow2",
                    "-nographic", "-append", app, "-m", mem] ++ net_config
        .ok (match fw.initrd with
             | some i => cmd ++ ["-initrd", fw_dir ++ "/" ++ i]
             | none => cmd)

/-! ### Manager state -/

/-- An active-instance record, one per running child
(the dict built at the end of `spawn_instance`; the hidden `_proc`
handle is modeled by the liveness bit `procAlive`, the `_log_fh` handle
by membership of `log` in the host's open-log list, `_overlay` by the
`overlay` field). -/
structure Inst where
  id : String
  firmware_id : String
  arch : String
  name : String
  pid : Nat
  tap : String
  mac : String
  ip : String
  ip_internal : Option String
  tap_internal : Option String
  mac_internal : Option String
  multi_homed : Bool
  log : String
  procAlive : Bool
  overlay : Option String
deriving DecidableEq, Repr, Inhabited

/-- Host-side state the manager mutates: network interface names (the
kernel keeps them unique), whether `br_internal` exists, which regular
files exist, the open per-instance log handles (as a multiset of paths),
and the overlay files. -/
structure Host where
  ifaces : List String
  brInternal : Bool
  files : List String
  openLogs : List String
  overlays : List String
deriving DecidableEq, Repr, Inhabited

/-- Full manager state: the host plus the ordered `run_id → instance`
table (`active_instances`, insertion-ordered as Python dicts are). -/
structure MState where
  host : Host
  active : List Inst
deriving DecidableEq, Repr, Inhabited

/-- Effect oracle for one `spawn_instance` call: the random bytes the
two `_generate_mac` calls would consume, the `uuid4().hex[:8]` value,
and the success of each host command. -/
structure SpawnEnv where
  macA : Nat
  macB : Nat
  macC : Nat
  macIA : Nat
  macIB : Nat
  macIC : Nat
  uuid : String
  brOk : Bool
  tapOk : String → Bool
  overlayOk : Bool
  logOpenOk : Bool
  popenOk : Bool
  pid : Nat

/-- Errors a `spawn_instance` call can raise. -/
inductive SpawnErr where
  | notFound (fid : String)
  | conflict (runId : String)
  | bridgeFailed
  | tapFailed (tap : String)
  | fileMissing (path : String)
  | overlayFailed
  | buildFailed (e : CfgErr)
  | logOpenFailed
  | popenFailed
deriving DecidableEq, Repr

/-- Embedding of `LabManager._ensure_internal_bridge`: create the internal
bridge if absent; `none` models a failing `ip` command. -/
def ensure_internal_bridge (h : Host) (brOk : Bool) : Option Host :=
  if h.brInternal then some h
  else if brOk then some { h with brInternal := true } else none

/-- Embedding of `LabManager._create_tap`: `ip tuntap add` fails when the
device already exists, and the oracle may fail any of the three host
commands; on success the named interface exists on the host. -/
def create_tap (h : Host) (tap : String) (ok : Bool) : Option Host :=
  if tap ∈ h.ifaces ∨ ok = false then none
  else some { h with ifaces := h.ifaces ++ [tap] }

/-- Embedding of `LabManager._destroy_tap` (errors ignored; the interface,
if present, is gone afterwards). -/
def destroy_tap (h : Host) (tap : String) : Host :=
  { h with ifaces := h.ifaces.filter fun n => n != tap }

/-- Embedding of `self.active_instances[run_id] = inst` on a Python dict:
replace in place when the key exists, append otherwise. -/
def dictInsert (l : List Inst) (inst : Inst) : List Inst :=
  if l.any fun i => i.id == inst.id then
    l.map fun i => if i.id == inst.id then inst else i
  else l ++ [inst]

/-- Result of a spawn: the error or the run id, in either case paired with
the manager state after the call (so leaked host artifacts stay visible). -/
abbrev SpawnRes := Except (SpawnErr × MState) (String × MState)

/-- Last steps of `spawn_instance` (source lines 302-344): build the
argument vector, open the log, launch the child with compensation on
`Popen` failure, register the instance. -/
def spawn_launch (st : MState) (fid : String) (env : SpawnEnv) (fw : Fw)
    (tap mac : String) (h4 : Host) (overlayPath tapInt macInt : Option String) : SpawnRes :=
  let run_id := fid ++ "_" ++ env.uuid
  match build_qemu_cmd fw tap mac overlayPath tapInt macInt with
  | .error ce => .error (.buildFailed ce, { st with host := h4 })
  | .ok _cmd =>
    let logPath := "logs/qemu-" ++ run_id ++ ".log"
    if ¬ env.logOpenOk then
      .error (.logOpenFailed, { st with host := h4 })
    else
      let h5 := { h4 with openLogs := h4.openLogs ++ [logPath] }
      if ¬ env.popenOk then
        -- the except-branch of the Popen call: close the log,
        -- destroy the primary then the secondary TAP, re-raise
        -- (the overlay is not unlinked here)
        let h6 := { h5 with openLogs := h5.openLogs.erase logPath }
        let h7 := destroy_tap h6 tap
        let h8 := match tapInt with
                  | some ti => destroy_tap h7 ti
                  | none => h7
        .error (.popenFailed, { st with host := h8 })
      else
        let inst : Inst :=
          { id := run_id, firmware_id := fid, arch := fw.arch,
            name := fw.name.getD fid, pid := env.pid,
            tap := tap, mac := mac, ip := "pending",
            ip_internal := if fw.multi_homed then some "pending" else none,
            tap_internal := tapInt, mac_internal := macInt,
            multi_homed := fw.multi_homed,
            log := logPath, procAlive := true, overlay := overlayPath }
        .ok (run_id, { host := h5, active := dictInsert st.active inst })

/-- Tail of `spawn_instance` from the file-existence checks on
(source lines 284-301), after the multi-homed setup produced host state
`h2` and the optional secondary TAP/MAC. -/
def spawn_finish (st : MState) (fid : String) (env : SpawnEnv) (fw : Fw)
    (tap mac : String) (h2 : Host) (tapInt macInt : Option String) : SpawnRes :=
  let run_id := fid ++ "_" ++ env.uuid
  let kernelPath := fw.dir ++ "/" ++ fw.kernel
  if kernelPath ∉ h2.files then
    .error (.fileMissing kernelPath, { st with host := h2 })
  else
    match (match fw.rootfs with
           | some r =>
             if (fw.dir ++ "/" ++ r) ∈ h2.files then none
             else some (fw.dir ++ "/" ++ r)
           | none => none) with
    | some missing => .error (.fileMissing missing, { st with host := h2 })
    | none =>
      match create_tap h2 tap (env.tapOk tap) with
      | none => .error (.tapFailed tap, { st with host := h2 })
      | some h3 =>
        match fw.rootfs with
        | some _ =>
          if env.overlayOk then
            let ov := "overlays/" ++ run_id ++ ".qcow2"
            spawn_launch st fid env fw tap mac
              { h3 with overlays := h3.overlays ++ [ov] } (some ov) tapInt macInt
          else .error (.overlayFailed, { st with host := h3 })
        | none => spawn_launch st fid env fw tap mac h3 none tapInt macInt

/-- Embedding of `LabManager.spawn_instance` (source lines 255-344):
lookup, cortex-m3 liveness guard, primary TAP index and MAC, multi-homed
setup (internal bridge and secondary TAP created *before* the
file-existence checks, as in the source), then `spawn_finish`. -/
def spawn_instance (lib : List Entry) (st : MState) (fid : String)
    (env : SpawnEnv) : SpawnRes :=
  match load_firmware lib fid with
  | none => .error (.notFound fid, st)
  | some fw =>
    match (if fw.arch == "cortex-m3"
           then st.active.find? fun i => i.arch == "cortex-m3" && i.procAlive
           else none) with
    | some blocking => .error (.conflict blocking.id, st)
    | none =>
      let tap := get_next_tap st.host.ifaces ""
      let mac := if fw.arch == "cortex-m3" then STELLARIS_MAC
                 else mkMac env.macA env.macB env.macC
      if fw.multi_homed then
        match ensure_internal_bridge st.host env.brOk with
        | none => .error (.bridgeFailed, st)
        | some h1 =>
          let tapInt := get_next_tap h1.ifaces "_int"
          let macInt := mkMac env.macIA env.macIB env.macIC
          match create_tap h1 tapInt (env.tapOk tapInt) with
          | none => .error (.tapFailed tapInt, { st with host := h1 })
          | some h2 => spawn_finish st fid env fw tap mac h2 (some tapInt) (some macInt)
      else
        spawn_finish st fid env fw tap mac st.host none none

/-- Embedding of `LabManager.stop_instance`: pop the entry, terminate the
child, close the log, destroy the TAP(s), unlink the overlay; best-effort
cleanup never fails. -/
def stop_instance (st : MState) (rid : String) : Bool × MState :=
  match st.active.find? (fun i => i.id == rid) with
  | none => (false, st)
  | some inst =>
    let active1 := st.active.eraseP fun i => i.id == rid
    let h1 := { st.host with openLogs := st.host.openLogs.erase inst.log }
    let h2 := destroy_tap h1 inst.tap
    let h3 := match inst.tap_internal with
              | some ti => destroy_tap h2 ti
              | none => h2
    let h4 := match inst.overlay with
              | some ov => { h3 with overlays := h3.overlays.filter fun o => o != ov }
              | none => h3
    (true, { host := h4, active := active1 })

/-- Environment event: the QEMU child with the given pid exits
(observed by `poll()`; the instance stays in the table). -/
def markExit (st : MState) (p : Nat) : MState :=
  { st with active := st.active.map fun i =>
      if i.pid == p then { i with procAlive := false } else i }

/-! ### Lease reconciliation (`LabManager.refresh_ips`) -/

/-- One line of the external-lease scan for a given MAC:
`parts = line.split(); len(parts) >= 3 and parts[1].lower() == mac.lower()`
yields `parts[2]`. -/
def lineMatchIp (mac line : String) : Option String :=
  match tokens line with
  | _ :: p1 :: p2 :: _ => if lowerStr p1 == lowerStr mac then some p2 else none
  | _ => none

/-- First matching lease line wins (the inner `for ... break`). -/
def findLeaseIp (leases : List String) (mac : String) : Option String :=
  leases.findSome? (lineMatchIp mac)

/-- External pass of `refresh_ips` for one instance. -/
def refreshExt (leases : List String) (i : Inst) : Inst :=
  if i.ip == "pending" || i.ip == "unknown" then
    match findLeaseIp leases i.mac with
    | some ip => { i with ip := ip }
    | none => i
  else i

/-- Internal pass of `refresh_ips` for one instance. -/
def refreshInt (leases : List String) (i : Inst) : Inst :=
  if !i.multi_homed then i
  else
    match i.mac_internal with
    | none => i
    | some m =>
      if i.ip_internal = some "pending" ∨ i.ip_internal = some "unknown"
         ∨ i.ip_internal = none then
        match findLeaseIp leases m with
        | some ip => { i with ip_internal := some ip }
        | none => i
      else i

/-- Embedding of `LabManager.refresh_ips`; a `none` lease argument is a
missing lease file (silently tolerated). -/
def refresh_ips (st : MState) (leaseExt leaseInt : Option (List String)) : MState :=
  let a1 := match leaseExt with
            | some L => st.active.map (refreshExt L)
            | none => st.active
  let a2 := match leaseInt with
            | some L => a1.map (refreshInt L)
            | none => a1
  { st with active := a2 }

/-! ### Reachable manager states -/

/-- States reachable from a fresh manager (empty table, arbitrary host),
closed under successful and failed spawns, stops, child exits and lease
refreshes. -/
inductive Reach (lib : List Entry) : MState → Prop where
  | init (h : Host) : Reach lib { host := h, active := [] }
  | spawnOk {s s' : MState} {fid rid : String} {env : SpawnEnv} :
      Reach lib s → spawn_instance lib s fid env = .ok (rid, s') → Reach lib s'
  | spawnErr {s s' : MState} {fid : String} {env : SpawnEnv} {e : SpawnErr} :
      Reach lib s → spawn_instance lib s fid env = .error (e, s') → Reach lib s'
  | stop {s : MState} (rid : String) :
      Reach lib s → Reach lib (stop_instance s rid).2
  | procExit {s : MState} (p : Nat) :
      Reach lib s → Reach lib (markExit s p)
  | refresh {s : MState} (le li : Option (List String)) :
      Reach lib s → Reach lib (refresh_ips s le li)

/-! ### Result projections and concrete fixtures used by witnesses,
counterexamples and failing-input evaluations -/

/-- State carried by a spawn result (post-call state in both cases). -/
def errSt (r : SpawnRes) : MState :=
  match r with
  | .error (_, s) => s
  | .ok (_, s) => s

/-- A plain single-NIC mipsel Linux firmware config. -/
def cfgLin : Cfg :=
  { id := "fw1", name := some "Device", arch := "mipsel", qemu_machine := some "malta",
    memory := some "256", kernel := "k.img", rootfs := some "r.qcow2",
    initrd := none, multi_homed := false }

/-- A library holding only `cfgLin`. -/
def libLin : List Entry := [⟨"lib/a", cfgLin⟩]

/-- Fresh host with the mipsel firmware files present and no interfaces. -/
def hostLin : Host :=
  { ifaces := [], brInternal := false, files := ["lib/a/k.img", "lib/a/r.qcow2"],
    openLogs := [], overlays := [] }

/-- Fresh manager over `hostLin`. -/
def stLin : MState := { host := hostLin, active := [] }

/-- All-success effect oracle with the given uuid and pid; the RNG yields
bytes 01:02:03 for the primary MAC and 04:05:06 for the secondary. -/
def envAll (u : String) (p : Nat) : SpawnEnv :=
  { macA := 1, macB := 2, macC := 3, macIA := 4, macIB := 5, macIC := 6,
    uuid := u, brOk := true, tapOk := fun _ => true, overlayOk := true,
    logOpenOk := true, popenOk := true, pid := p }

/-- A cortex-m3 (Stellaris) firmware config. -/
def cfgM3 : Cfg :=
  { id := "m3", name := none, arch := "cortex-m3", qemu_machine := some "lm3s6965evb",
    memory := none, kernel := "z.bin", rootfs := none, initrd := none,
    multi_homed := false }

/-- Library holding only `cfgM3`. -/
def libM3 : List Entry := [⟨"lib/c", cfgM3⟩]

/-- Fresh host with the cortex-m3 kernel present. -/
def hostM3 : Host :=
  { ifaces := [], brInternal := false, files := ["lib/c/z.bin"],
    openLogs := [], overlays := [] }

/-- The riscv32 descriptor with `multi_homed` requested. -/
def fwR32 : Fw :=
  { id := "r32", name := none, arch := "riscv32", qemu_machine := some "virt",
    memory := none, kernel := "z.elf", rootfs := none, initrd := none,
    multi_homed := true, dir := "lib/r" }

/-- A cortex-m3 descriptor with `multi_homed` requested. -/
def fwM3mh : Fw :=
  { cfgM3 with multi_homed := true, dir := "lib/c" }

/-! ### C4: TAP allocation -/

/-- Every list element is bounded by the running `foldr max`. -/
lemma le_foldr_max {x : Nat} : ∀ {ex : List Nat}, x ∈ ex → x ≤ ex.foldr Nat.max 0
  | a :: t, h => by
    rcases List.mem_cons.mp h with h | h
    · subst h; exact Nat.le_max_left _ _
    · exact Nat.le_trans (le_foldr_max h) (Nat.le_max_right _ _)

/-- The while-loop of `_get_next_tap` finds the least free index provided
the fuel covers some free index. -/
lemma leastFreeAux_spec (ex : List Nat) :
    ∀ (fuel i : Nat), (∃ j, i ≤ j ∧ j < i + fuel ∧ j ∉ ex) →
      leastFreeAux ex fuel i ∉ ex ∧ i ≤ leastFreeAux ex fuel i ∧
        ∀ k, i ≤ k → k < leastFreeAux ex fuel i → k ∈ ex := by
  intro fuel
  induction fuel with
  | zero =>
    intro i ⟨j, hij, hj, _⟩
    omega
  | succ fuel ih =>
    intro i ⟨j, hij, hj, hjex⟩
    by_cases hi : i ∈ ex
    · have hne : j ≠ i := fun h => hjex (h ▸ hi)
      have := ih (i + 1) ⟨j, by omega, by omega, hjex⟩
      simp only [leastFreeAux, if_pos hi]
      refine ⟨this.1, by omega, fun k hk1 hk2 => ?_⟩
      rcases Nat.eq_or_lt_of_le hk1 with h | h
      · exact h ▸ hi
      · exact this.2.2 k h hk2
    · simp only [leastFreeAux, if_neg hi]
      exact ⟨hi, Nat.le_refl _, fun k h1 h2 => absurd (Nat.lt_of_le_of_lt h1 h2) (Nat.lt_irrefl i)⟩

/-- `leastFree` is the least natural number missing from `ex`. -/
lemma leastFree_spec (ex : List Nat) :
    leastFree ex ∉ ex ∧ ∀ k, k < leastFree ex → k ∈ ex := by
  have hfree : ex.foldr Nat.max 0 + 1 ∉ ex := fun h => by
    have := le_foldr_max h; omega
  have h := leastFreeAux_spec ex (ex.foldr Nat.max 0 + 2) 0
    ⟨ex.foldr Nat.max 0 + 1, Nat.zero_le _, by omega, hfree⟩
  exact ⟨h.1, fun k hk => h.2.2 k (Nat.zero_le _) hk⟩

/-- Comparison definition following the specification's words for
allocate-tap: return `tap{m}{suffix}` for the least `m` such that no
interface named `tap{m}{suffix}` exists. -/
def specNextTap (ifaces : List String) (suffix : String) : String :=
  let free := (List.range (ifaces.length + 1)).find? fun n =>
    ("tap" ++ toString n ++ suffix) ∉ ifaces
  "tap" ++ toString (free.getD (ifaces.length + 1)) ++ suffix

/-- Claim C4 is false as stated: with `tap0_int` present and suffix
`_int`, the spec formula demands `tap1_int`, but `_get_next_tap` ignores
the suffix during enumeration and returns the already-existing name
`tap0_int`. -/
theorem c4_counterexample :
    get_next_tap ["tap0_int"] "_int" = "tap0_int" ∧
    specNextTap ["tap0_int"] "_int" = "tap1_int" ∧
    "tap0_int" ∈ ["tap0_int"] ∧
    get_next_tap ["tap0_int"] "_int" ≠ specNextTap ["tap0_int"] "_int" := by
  refine ⟨rfl, rfl, List.mem_singleton.mpr rfl, fun h => ?_⟩
  exact absurd h (by decide)

/-- First spawn from the fresh mipsel lab. -/
def c4s1 : MState := errSt (spawn_instance libLin stLin "fw1" (envAll "00000001" 100))

/-- Second spawn. -/
def c4s2 : MState := errSt (spawn_instance libLin c4s1 "fw1" (envAll "00000002" 101))

/-- Third spawn. -/
def c4s3 : MState := errSt (spawn_instance libLin c4s2 "fw1" (envAll "00000003" 102))

/-- Stop of the middle instance. -/
def c4s3s : MState := (stop_instance c4s3 "fw1_00000002").2

/-- Fourth spawn, after the middle instance was stopped. -/
def c4s4 : MState := errSt (spawn_instance libLin c4s3s "fw1" (envAll "00000004" 103))

/-- Claim C4 amended: `_get_next_tap` returns `tap{m}{suffix}` where `m`
is the least index `n` such that no interface named `tap{n}` — "tap"
followed by digits only — exists; the suffix is appended to the returned
name but ignored during enumeration.  In particular, with the empty
suffix the spec formula holds: three successive spawns allocate `tap0`,
`tap1`, `tap2`, and after stopping the middle instance the next spawn
reuses `tap1`. -/
theorem c4_amended :
    (∀ (ifaces : List String) (suffix : String), ∃ m,
        get_next_tap ifaces suffix = "tap" ++ toString m ++ suffix ∧
        m ∉ tapIndices ifaces ∧ ∀ k, k < m → k ∈ tapIndices ifaces) ∧
    spawn_instance libLin stLin "fw1" (envAll "00000001" 100) = .ok ("fw1_00000001", c4s1) ∧
    spawn_instance libLin c4s1 "fw1" (envAll "00000002" 101) = .ok ("fw1_00000002", c4s2) ∧
    spawn_instance libLin c4s2 "fw1" (envAll "00000003" 102) = .ok ("fw1_00000003", c4s3) ∧
    c4s3.active.map (fun i => i.tap) = ["tap0", "tap1", "tap2"] ∧
    (stop_instance c4s3 "fw1_00000002").1 = true ∧
    spawn_instance libLin c4s3s "fw1" (envAll "00000004" 103) = .ok ("fw1_00000004", c4s4) ∧
    c4s4.active.map (fun i => i.tap) = ["tap0", "tap2", "tap1"] := by
  refine ⟨fun ifaces suffix => ⟨leastFree (tapIndices ifaces), rfl, ?_, ?_⟩,
    rfl, rfl, rfl, by decide, by decide, rfl, by decide⟩
  · exact (leastFree_spec (tapIndices ifaces)).1
  · exact (leastFree_spec (tapIndices ifaces)).2

/-! ### C3: multi-homed on a non-supporting architecture -/

/-- Claim C3 is false as stated: for a riscv32 descriptor with
`multi_homed` and both secondary handles supplied, and likewise for a
cortex-m3 descriptor, `_build_qemu_cmd` does not raise a configuration
error — the `supports_multi` guard routes these architectures to the
single-NIC path and an argument vector is produced. -/
theorem c3_counterexample :
    build_qemu_cmd fwR32 "tap0" "52:54:00:00:00:00" none
        (some "tap0_int") (some "52:54:00:00:00:01")
      = .ok ["qemu-system-riscv32", "-M", "virt", "-bios", "none", "-m", "256",
             "-kernel", "lib/r/z.elf", "-nographic",
             "-netdev", "tap,id=net0,ifname=tap0,script=no,downscript=no",
             "-device", "virtio-net-device,netdev=net0,mac=52:54:00:00:00:00"] ∧
    build_qemu_cmd fwM3mh "tap0" "52:54:00:00:00:00" none
        (some "tap0_int") (some "52:54:00:00:00:01")
      = .ok ["qemu-system-arm", "-M", "lm3s6965evb", "-kernel", "lib/c/z.bin",
             "-nographic", "-net", "nic,model=stellaris",
             "-net", "tap,ifname=tap0,script=no,downscript=no"] :=
  ⟨rfl, rfl⟩

/-- Claim C3 amended: for a descriptor whose architecture is cortex-m3 or
riscv32, building the command with secondary TAP/MAC handles supplied does
not fail with a configuration error; the `supports_multi` guard silently
falls back to the single-NIC argument vector (the builder's multi-homed
`ValueError` branch is unreachable for every architecture in the profile
table). -/
theorem c3_amended (fw : Fw) (tap mac : String) (ov ti mi : Option String)
    (h : fw.arch = "cortex-m3" ∨ fw.arch = "riscv32") :
    build_qemu_cmd fw tap mac ov ti mi = build_qemu_cmd fw tap mac ov none none ∧
    (build_qemu_cmd fw tap mac ov ti mi).isOk = true := by
  rcases h with h | h <;>
    cases ti <;> cases mi <;>
      simp [build_qemu_cmd, h, Except.isOk, Except.toBool]

/-- Witness for the amended C3 at the concrete riscv32 descriptor. -/
theorem c3_amended_witness :
    build_qemu_cmd fwR32 "tap0" "52:54:00:00:00:02" none
        (some "tap1_int") (some "52:54:00:00:00:03")
      = build_qemu_cmd fwR32 "tap0" "52:54:00:00:00:02" none none none ∧
    (build_qemu_cmd fwR32 "tap0" "52:54:00:00:00:02" none
        (some "tap1_int") (some "52:54:00:00:00:03")).isOk = true :=
  c3_amended fwR32 "tap0" "52:54:00:00:00:02" none
    (some "tap1_int") (some "52:54:00:00:00:03") (Or.inr rfl)

/-! ### Lease reconciliation lemmas (C7, C8, C9) -/

lemma refreshExt_ip_fields (L : List String) (i : Inst) :
    (refreshExt L i).mac = i.mac ∧ (refreshExt L i).id = i.id ∧
    (refreshExt L i).arch = i.arch ∧ (refreshExt L i).procAlive = i.procAlive ∧
    (refreshExt L i).multi_homed = i.multi_homed ∧
    (refreshExt L i).mac_internal = i.mac_internal ∧
    (refreshExt L i).ip_internal = i.ip_internal := by
  unfold refreshExt
  split
  · split <;> exact ⟨rfl, rfl, rfl, rfl, rfl, rfl, rfl⟩
  · exact ⟨rfl, rfl, rfl, rfl, rfl, rfl, rfl⟩

lemma refreshInt_fields (L : List String) (i : Inst) :
    (refreshInt L i).ip = i.ip ∧ (refreshInt L i).mac = i.mac ∧
    (refreshInt L i).id = i.id ∧ (refreshInt L i).arch = i.arch ∧
    (refreshInt L i).procAlive = i.procAlive ∧
    (refreshInt L i).multi_homed = i.multi_homed ∧
    (refreshInt L i).mac_internal = i.mac_internal := by
  unfold refreshInt
  split
  · exact ⟨rfl, rfl, rfl, rfl, rfl, rfl, rfl⟩
  · split
    · exact ⟨rfl, rfl, rfl, rfl, rfl, rfl, rfl⟩
    · split
      · split <;> exact ⟨rfl, rfl, rfl, rfl, rfl, rfl, rfl⟩
      · exact ⟨rfl, rfl, rfl, rfl, rfl, rfl, rfl⟩

/-- Rescanning an already reconciled instance changes nothing (external). -/
lemma refreshExt_idem (L : List String) (i : Inst) :
    refreshExt L (refreshExt L i) = refreshExt L i := by
  by_cases h : (i.ip == "pending" || i.ip == "unknown") = true
  · cases hf : findLeaseIp L i.mac with
    | none => simp [refreshExt, h, hf]
    | some v =>
      by_cases hv : (v == "pending" || v == "unknown") = true
      · simp [refreshExt, h, hf, hv]
      · simp [refreshExt, h, hf, hv]
  · simp [refreshExt, h]

/-- Rescanning an already reconciled instance changes nothing (internal). -/
lemma refreshInt_idem (L : List String) (i : Inst) :
    refreshInt L (refreshInt L i) = refreshInt L i := by
  by_cases hm : i.multi_homed = true
  · cases hmi : i.mac_internal with
    | none => simp [refreshInt, hm, hmi]
    | some m =>
      by_cases hip : i.ip_internal = some "pending" ∨ i.ip_internal = some "unknown"
          ∨ i.ip_internal = none
      · cases hf : findLeaseIp L m with
        | none => simp [refreshInt, hm, hmi, hip, hf]
        | some v =>
          by_cases hv : (some v : Option String) = some "pending"
              ∨ (some v : Option String) = some "unknown"
              ∨ (some v : Option String) = none
          · simp [refreshInt, hm, hmi, hip, hf, hv]
          · simp [refreshInt, hm, hmi, hip, hf, hv]
      · simp [refreshInt, hm, hmi, hip]
  · have hm' : i.multi_homed = false := by simpa using hm
    simp [refreshInt, hm']

/-- The two passes touch disjoint fields and commute. -/
lemma refresh_comm (L L' : List String) (i : Inst) :
    refreshExt L (refreshInt L' i) = refreshInt L' (refreshExt L i) := by
  by_cases hm : i.multi_homed = true
  · cases hmi : i.mac_internal with
    | none =>
      by_cases he : (i.ip == "pending" || i.ip == "unknown") = true
      · cases hf : findLeaseIp L i.mac with
        | none => simp [refreshExt, refreshInt, hm, hmi, he, hf]
        | some v => simp [refreshExt, refreshInt, hm, hmi, he, hf]
      · simp [refreshExt, refreshInt, hm, hmi, he]
    | some m =>
      by_cases hip : i.ip_internal = some "pending" ∨ i.ip_internal = some "unknown"
          ∨ i.ip_internal = none
      · cases hg : findLeaseIp L' m with
        | none =>
          by_cases he : (i.ip == "pending" || i.ip == "unknown") = true
          · cases hf : findLeaseIp L i.mac with
            | none => simp [refreshExt, refreshInt, hm, hmi, hip, hg, he, hf]
            | some v => simp [refreshExt, refreshInt, hm, hmi, hip, hg, he, hf]
          · simp [refreshExt, refreshInt, hm, hmi, hip, hg, he]
        | some w =>
          by_cases he : (i.ip == "pending" || i.ip == "unknown") = true
          · cases hf : findLeaseIp L i.mac with
            | none => simp [refreshExt, refreshInt, hm, hmi, hip, hg, he, hf]
            | some v => simp [refreshExt, refreshInt, hm, hmi, hip, hg, he, hf]
          · simp [refreshExt, refreshInt, hm, hmi, hip, hg, he]
      · by_cases he : (i.ip == "pending" || i.ip == "unknown") = true
        · cases hf : findLeaseIp L i.mac with
          | none => simp [refreshExt, refreshInt, hm, hmi, hip, he, hf]
          | some v => simp [refreshExt, refreshInt, hm, hmi, hip, he, hf]
        · simp [refreshExt, refreshInt, hm, hmi, hip, he]
  · have hm' : i.multi_homed = false := by simpa using hm
    by_cases he : (i.ip == "pending" || i.ip == "unknown") = true
    · cases hf : findLeaseIp L i.mac with
      | none => simp [refreshExt, refreshInt, hm', he, hf]
      | some v => simp [refreshExt, refreshInt, hm', he, hf]
    · simp [refreshExt, refreshInt, hm', he]

/-- Claim C7: lease reconciliation is idempotent — with the manager state
and the two lease files fixed, running `refresh_ips` twice in a row yields
the same instance state as running it once. -/
theorem c7_refresh_idempotent (st : MState) (le li : Option (List String)) :
    refresh_ips (refresh_ips st le li) le li = refresh_ips st le li := by
  have hpoint : ∀ (L L' : List String) (i : Inst),
      refreshInt L' (refreshExt L (refreshInt L' (refreshExt L i)))
        = refreshInt L' (refreshExt L i) := fun L L' i => by
    rw [refresh_comm L L' (refreshExt L i), refreshExt_idem, refreshInt_idem]
  cases le with
  | none =>
    cases li with
    | none => rfl
    | some L' =>
      simp only [refresh_ips, List.map_map]
      congr 1
      exact List.map_congr_left fun i _ => refreshInt_idem L' i
  | some L =>
    cases li with
    | none =>
      simp only [refresh_ips, List.map_map]
      congr 1
      exact List.map_congr_left fun i _ => refreshExt_idem L i
    | some L' =>
      simp only [refresh_ips, List.map_map]
      congr 1
      exact List.map_congr_left fun i _ => hpoint L L' i

/-- Comparison definition following the specification's words: a lease
line matches a MAC when it has at least three whitespace-separated tokens
(extra trailing tokens tolerated) and its second token equals the MAC
case-insensitively. -/
def specLeaseMatch (mac line : String) : Bool :=
  match (tokens line)[1]?, (tokens line)[2]? with
  | some p1, some _ => lowerStr p1 == lowerStr mac
  | _, _ => false

/-- Comparison definition following the specification's words: the third
token of the first matching lease line, if any. -/
def specLeaseIp (L : List String) (mac : String) : Option String :=
  (L.find? (specLeaseMatch mac)).bind fun l => (tokens l)[2]?

/-- Comparison definition following the specification's words: the new
external IP of an instance after one reconciliation pass. -/
def specNewIp (L : List String) (i : Inst) : String :=
  if i.ip = "pending" ∨ i.ip = "unknown" then (specLeaseIp L i.mac).getD i.ip
  else i.ip

/-- The scanner's per-line test agrees with the spec-side description. -/
lemma lineMatch_eq_spec (mac l : String) :
    lineMatchIp mac l = if specLeaseMatch mac l then (tokens l)[2]? else none := by
  rcases hts : tokens l with _ | ⟨a, _ | ⟨b, _ | ⟨c, t3⟩⟩⟩
  · simp [lineMatchIp, specLeaseMatch, hts]
  · simp [lineMatchIp, specLeaseMatch, hts]
  · simp [lineMatchIp, specLeaseMatch, hts]
  · by_cases hb : (lowerStr b == lowerStr mac) = true <;>
      simp [lineMatchIp, specLeaseMatch, hts, hb]

/-- The first-match scan of `refresh_ips` computes the spec-side lookup. -/
lemma findLease_eq_spec (L : List String) (mac : String) :
    findLeaseIp L mac = specLeaseIp L mac := by
  induction L with
  | nil => rfl
  | cons l t ih =>
    by_cases hm : specLeaseMatch mac l = true
    · have h2 : ∃ v, (tokens l)[2]? = some v := by
        rcases hts : tokens l with _ | ⟨a, _ | ⟨b, _ | ⟨c, t3⟩⟩⟩ <;>
          simp [specLeaseMatch, hts] at hm ⊢
      obtain ⟨v, hv⟩ := h2
      simp [findLeaseIp, specLeaseIp, List.findSome?_cons, lineMatch_eq_spec,
        hm, hv, List.find?_cons]
    · have hm' : specLeaseMatch mac l = false := by simpa using hm
      simpa [findLeaseIp, specLeaseIp, List.findSome?_cons, lineMatch_eq_spec,
        hm', List.find?_cons] using ih

/-- The external pass updates the `ip` field exactly as the spec words it. -/
lemma refreshExt_ip_spec (L : List String) (i : Inst) :
    (refreshExt L i).ip = specNewIp L i := by
  by_cases h : (i.ip == "pending" || i.ip == "unknown") = true
  · have h' : i.ip = "pending" ∨ i.ip = "unknown" := by
      simpa [Bool.or_eq_true, beq_iff_eq] using h
    cases hf : findLeaseIp L i.mac with
    | none => simp [refreshExt, specNewIp, h, h', ← findLease_eq_spec, hf]
    | some v => simp [refreshExt, specNewIp, h, h', ← findLease_eq_spec, hf]
  · have h' : ¬(i.ip = "pending" ∨ i.ip = "unknown") := by
      simpa [Bool.or_eq_true, beq_iff_eq] using h
    simp [refreshExt, specNewIp, h, h']

/-- Claim C8: for every active instance whose `ip` is pending or unknown,
`refresh_ips` sets `ip` to the third whitespace-separated token of the
first lease line whose second token equals the instance's MAC
case-insensitively (short lines skipped, trailing tokens tolerated, no
match leaves `ip` unchanged); instances whose `ip` is already concrete
are unchanged, and a missing external lease file leaves every `ip`
unchanged. -/
theorem c8_lease_scan :
    (∀ (st : MState) (L : List String) (li : Option (List String)),
        (refresh_ips st (some L) li).active.map (fun i => i.ip)
          = st.active.map (specNewIp L)) ∧
    (∀ (st : MState) (li : Option (List String)),
        (refresh_ips st none li).active.map (fun i => i.ip)
          = st.active.map (fun i => i.ip)) := by
  constructor
  · intro st L li
    cases li with
    | none =>
      simp only [refresh_ips, List.map_map]
      exact List.map_congr_left fun i _ => refreshExt_ip_spec L i
    | some L' =>
      simp only [refresh_ips, List.map_map]
      refine List.map_congr_left fun i _ => ?_
      show (refreshInt L' (refreshExt L i)).ip = specNewIp L i
      rw [(refreshInt_fields L' (refreshExt L i)).1, refreshExt_ip_spec]
  · intro st li
    cases li with
    | none => simp [refresh_ips]
    | some L' =>
      simp only [refresh_ips, List.map_map]
      exact List.map_congr_left fun i _ => (refreshInt_fields L' i).1

/-- Projection forgetting exactly the two fields `refresh_ips` may write. -/
def scrubIps (i : Inst) : Inst := { i with ip := "", ip_internal := none }

lemma scrub_refreshExt (L : List String) (i : Inst) :
    scrubIps (refreshExt L i) = scrubIps i := by
  unfold refreshExt
  split
  · split <;> rfl
  · rfl

lemma scrub_refreshInt (L : List String) (i : Inst) :
    scrubIps (refreshInt L i) = scrubIps i := by
  unfold refreshInt
  split
  · rfl
  · split
    · rfl
    · split
      · split <;> rfl
      · rfl

/-- Claim C9: `refresh_ips` modifies at most the `ip` and `ip_internal`
fields of active instances — the host state, every other instance field,
and the list of run ids in order are unchanged. -/
theorem c9_refresh_frame (st : MState) (le li : Option (List String)) :
    (refresh_ips st le li).host = st.host ∧
    (refresh_ips st le li).active.map scrubIps = st.active.map scrubIps ∧
    (refresh_ips st le li).active.map (fun i => i.id) = st.active.map (fun i => i.id) := by
  refine ⟨by cases le <;> cases li <;> rfl, ?_, ?_⟩ <;>
    cases le <;> cases li <;>
      simp only [refresh_ips, List.map_map] <;>
        refine List.map_congr_left fun i _ => ?_ <;>
          simp only [Function.comp_apply]
  · exact scrub_refreshInt _ i
  · exact scrub_refreshExt _ i
  · rw [scrub_refreshInt, scrub_refreshExt]
  · exact (refreshInt_fields _ i).2.2.1
  · exact (refreshExt_ip_fields _ i).2.1
  · rw [(refreshInt_fields _ _).2.2.1, (refreshExt_ip_fields _ i).2.1]

/-! ### C10: duplicate firmware ids and scan order -/

lemma lexLe_total : ∀ (as bs : List Char), lexLe as bs = true ∨ lexLe bs as = true
  | [], _ => Or.inl rfl
  | _ :: _, [] => Or.inr rfl
  | a :: as, b :: bs => by
    unfold lexLe
    rcases Nat.lt_trichotomy a.toNat b.toNat with h | h | h
    · simp [h]
    · rcases lexLe_total as bs with ht | ht <;>
        simp [h, Nat.lt_irrefl, ht]
    · simp [h, Nat.lt_asymm h]

lemma lexLe_trans : ∀ (as bs cs : List Char),
    lexLe as bs = true → lexLe bs cs = true → lexLe as cs = true
  | [], _, _ => fun _ _ => rfl
  | a :: as, [], _ => fun h _ => by simp [lexLe] at h
  | _ :: _, _ :: _, [] => fun _ h => by simp [lexLe] at h
  | a :: as, b :: bs, c :: cs => fun h1 h2 => by
    unfold lexLe at h1 h2 ⊢
    by_cases h1ab : a.toNat < b.toNat
    · by_cases h2bc : b.toNat < c.toNat
      · rw [if_pos (Nat.lt_trans h1ab h2bc)]
      · by_cases h2cb : c.toNat < b.toNat
        · rw [if_neg (by omega), if_pos h2cb] at h2
          exact absurd h2 (by simp)
        · have hbc : b.toNat = c.toNat := by omega
          rw [if_pos (hbc ▸ h1ab)]
    · by_cases h1ba : b.toNat < a.toNat
      · rw [if_neg h1ab, if_pos h1ba] at h1
        exact absurd h1 (by simp)
      · have hab : a.toNat = b.toNat := by omega
        rw [if_neg h1ab, if_neg h1ba] at h1
        by_cases h2bc : b.toNat < c.toNat
        · rw [if_pos (hab ▸ h2bc)]
        · by_cases h2cb : c.toNat < b.toNat
          · rw [if_neg h2bc, if_pos h2cb] at h2
            exact absurd h2 (by simp)
          · rw [if_neg h2bc, if_neg h2cb] at h2
            rw [if_neg (by omega), if_neg (by omega)]
            exact lexLe_trans as bs cs h1 h2

lemma pathLe_total (a b : String) : pathLe a b = true ∨ pathLe b a = true :=
  lexLe_total a.data b.data

lemma pathLe_trans {a b c : String} (h1 : pathLe a b = true)
    (h2 : pathLe b c = true) : pathLe a c = true :=
  lexLe_trans a.data b.data c.data h1 h2

lemma mem_insertEnt {a e : Entry} : ∀ {l : List Entry},
    a ∈ insertEnt e l ↔ a = e ∨ a ∈ l
  | [] => by simp [insertEnt]
  | b :: t => by
    unfold insertEnt
    split
    · simp
    · rw [List.mem_cons, List.mem_cons, mem_insertEnt (l := t)]
      tauto

lemma mem_sortEntries {a : Entry} : ∀ {l : List Entry},
    a ∈ sortEntries l ↔ a ∈ l
  | [] => Iff.rfl
  | b :: t => by
    unfold sortEntries
    rw [mem_insertEnt, List.mem_cons, mem_sortEntries (l := t)]

lemma pairwise_insertEnt {e : Entry} : ∀ {l : List Entry},
    l.Pairwise (fun a b => pathLe (cfgPath a) (cfgPath b) = true) →
    (insertEnt e l).Pairwise (fun a b => pathLe (cfgPath a) (cfgPath b) = true)
  | [], _ => List.pairwise_singleton _ _
  | b :: t, h => by
    unfold insertEnt
    rcases List.pairwise_cons.mp h with ⟨hb, ht⟩
    split
    · rename_i hle
      refine List.pairwise_cons.mpr ⟨?_, h⟩
      intro x hx
      rcases List.mem_cons.mp hx with hx | hx
      · exact hx ▸ hle
      · exact pathLe_trans hle (hb x hx)
    · rename_i hle
      have hba : pathLe (cfgPath b) (cfgPath e) = true := by
        rcases pathLe_total (cfgPath e) (cfgPath b) with hx | hx
        · exact absurd hx hle
        · exact hx
      refine List.pairwise_cons.mpr ⟨?_, pairwise_insertEnt ht⟩
      intro x hx
      rcases mem_insertEnt.mp hx with hx | hx
      · exact hx ▸ hba
      · exact hb x hx

lemma pairwise_sortEntries : ∀ (l : List Entry),
    (sortEntries l).Pairwise (fun a b => pathLe (cfgPath a) (cfgPath b) = true)
  | [] => List.Pairwise.nil
  | _ :: t => pairwise_insertEnt (pairwise_sortEntries t)

/-- On a `Pairwise`-ordered list, `find?` returns an element no later in
the order than any other element satisfying the predicate. -/
lemma find?_min_of_pairwise {α : Type} {R : α → α → Prop} {p : α → Bool} :
    ∀ {l : List α}, l.Pairwise R → ∀ {a : α}, l.find? p = some a →
      ∀ b ∈ l, p b = true → R a b ∨ a = b
  | [], _, _, h => by simp at h
  | x :: t, hp, a, h => by
    rcases List.pairwise_cons.mp hp with ⟨hx, ht⟩
    intro b hb hpb
    by_cases hpx : p x = true
    · rw [List.find?_cons_of_pos _ hpx] at h
      obtain rfl : x = a := by injection h
      rcases List.mem_cons.mp hb with rfl | hb
      · exact Or.inr rfl
      · exact Or.inl (hx b hb)
    · rw [List.find?_cons_of_neg _ hpx] at h
      rcases List.mem_cons.mp hb with rfl | hb
      · exact absurd hpb hpx
      · exact find?_min_of_pairwise ht h b hb hpb

/-- Claim C10: when several library descriptors share an id, firmware
lookup returns the first match of the linear scan over the sorted
scan order — the descriptor whose on-disk config-file path sorts first
among the matches. -/
theorem c10_duplicate_id_lookup (lib : List Entry) (fid : String) (e : Entry)
    (he : e ∈ lib) (hid : e.cfg.id = fid) :
    ∃ fw, load_firmware lib fid = some fw ∧ fw.id = fid ∧
      (∃ e0, e0 ∈ lib ∧ fw = { toCfg := e0.cfg, dir := e0.dir }) ∧
      ∀ e', e' ∈ lib → e'.cfg.id = fid →
        pathLe (fw.dir ++ "/config.json") (cfgPath e') = true := by
  have hmem : ({ toCfg := e.cfg, dir := e.dir } : Fw) ∈ scan lib :=
    List.mem_map_of_mem _ (mem_sortEntries.mpr he)
  have hsome : (scan lib).find? (fun fw => fw.id == fid) ≠ none := by
    intro hn
    exact absurd (beq_iff_eq.mpr hid)
      (by simpa using List.find?_eq_none.mp hn _ hmem)
  obtain ⟨fw, hfw⟩ := Option.ne_none_iff_exists'.mp hsome
  have hpw : (scan lib).Pairwise
      (fun a b => pathLe (a.dir ++ "/config.json") (b.dir ++ "/config.json") = true) := by
    refine List.Pairwise.map _ ?_ (pairwise_sortEntries lib)
    exact fun a b h => h
  have hfwid : fw.id = fid := by
    have h1 := List.find?_some hfw
    simpa using h1
  have hfwmem : fw ∈ scan lib := List.mem_of_find?_eq_some hfw
  obtain ⟨e0, he0, he0fw⟩ := List.mem_map.mp hfwmem
  refine ⟨fw, hfw, hfwid, ⟨e0, mem_sortEntries.mp he0, he0fw.symm⟩, ?_⟩
  intro e' he' hid'
  have he'scan : ({ toCfg := e'.cfg, dir := e'.dir } : Fw) ∈ scan lib :=
    List.mem_map_of_mem _ (mem_sortEntries.mpr he')
  have := find?_min_of_pairwise hpw hfw _ he'scan (beq_iff_eq.mpr hid')
  rcases this with h | h
  · exact h
  · subst h
    rcases pathLe_total (cfgPath e') (cfgPath e') with hx | hx <;> exact hx

/-- Two descriptors sharing the id `dup`; their config paths order
`lib/a` before `lib/z`. -/
def cfgDupA : Cfg :=
  { cfgLin with id := "dup", name := some "first" }

/-- The other duplicate, stored under the later-sorting path. -/
def cfgDupZ : Cfg :=
  { cfgLin with id := "dup", name := some "second" }

/-- Library listing the later-sorting duplicate first on disk-scan input. -/
def libDup : List Entry := [⟨"lib/z", cfgDupZ⟩, ⟨"lib/a", cfgDupA⟩]

/-- Witness for C10 at the concrete two-duplicate library. -/
theorem c10_witness :
    ∃ fw, load_firmware libDup "dup" = some fw ∧ fw.id = "dup" ∧
      (∃ e0, e0 ∈ libDup ∧ fw = { toCfg := e0.cfg, dir := e0.dir }) ∧
      ∀ e', e' ∈ libDup → e'.cfg.id = "dup" →
        pathLe (fw.dir ++ "/config.json") (cfgPath e') = true :=
  c10_duplicate_id_lookup libDup "dup" ⟨"lib/z", cfgDupZ⟩ (by decide) rfl

/-! ### Spawn failure analysis (C1, C2) -/

lemma create_tap_some {h : Host} {tap : String} {ok : Bool} {h' : Host}
    (hc : create_tap h tap ok = some h') :
    h' = { h with ifaces := h.ifaces ++ [tap] } ∧ tap ∉ h.ifaces := by
  unfold create_tap at hc
  split at hc
  · exact absurd hc (by simp)
  · rename_i hcond
    push_neg at hcond
    exact ⟨(Option.some.injEq _ _).mp hc.symm ▸ rfl, hcond.1⟩

lemma ensure_bridge_some {h : Host} {b : Bool} {h1 : Host}
    (hb : ensure_internal_bridge h b = some h1) :
    h1.ifaces = h.ifaces ∧ h1.openLogs = h.openLogs ∧ h1.files = h.files ∧
    h1.overlays = h.overlays := by
  unfold ensure_internal_bridge at hb
  split at hb
  · cases hb
    exact ⟨rfl, rfl, rfl, rfl⟩
  · split at hb
    · cases hb
      exact ⟨rfl, rfl, rfl, rfl⟩
    · exact absurd hb (by simp)

/-- Any failing `spawn_launch` leaves the active table untouched. -/
lemma spawn_launch_err_active {st : MState} {fid : String} {env : SpawnEnv}
    {fw : Fw} {tap mac : String} {h4 : Host} {ov ti mi : Option String}
    {e : SpawnErr} {st' : MState}
    (h : spawn_launch st fid env fw tap mac h4 ov ti mi = .error (e, st')) :
    st'.active = st.active := by
  simp only [spawn_launch] at h
  repeat' split at h
  all_goals simp_all
  all_goals (obtain ⟨_, hst⟩ := h; rw [← hst])

/-- Any failing `spawn_finish` leaves the active table untouched. -/
lemma spawn_finish_err_active {st : MState} {fid : String} {env : SpawnEnv}
    {fw : Fw} {tap mac : String} {h2 : Host} {ti mi : Option String}
    {e : SpawnErr} {st' : MState}
    (h : spawn_finish st fid env fw tap mac h2 ti mi = .error (e, st')) :
    st'.active = st.active := by
  simp only [spawn_finish] at h
  repeat' split at h
  all_goals first
    | (exact spawn_launch_err_active h)
    | (simp_all; try (obtain ⟨_, hst⟩ := h; rw [← hst]))

/-- Claim-level frame for failed spawns: the error propagates with the
active table unchanged. -/
lemma spawn_err_active {lib : List Entry} {st : MState} {fid : String}
    {env : SpawnEnv} {e : SpawnErr} {st' : MState}
    (h : spawn_instance lib st fid env = .error (e, st')) :
    st'.active = st.active := by
  simp only [spawn_instance] at h
  repeat' split at h
  all_goals first
    | (exact spawn_finish_err_active h)
    | (simp_all; try (obtain ⟨_, hst⟩ := h; rw [← hst]))

lemma filter_ne_of_not_mem {l : List String} {a : String} (ha : a ∉ l) :
    l.filter (fun n => n != a) = l :=
  List.filter_eq_self.mpr fun x hx => by
    simp only [bne_iff_ne, ne_eq, decide_eq_true_eq]
    exact fun hxa => ha (hxa ▸ hx)

lemma filter_ne_append {l : List String} {a : String} (ha : a ∉ l) :
    (l ++ [a]).filter (fun n => n != a) = l := by
  rw [List.filter_append, filter_ne_of_not_mem ha]
  simp

lemma erase_append_perm (l : List String) (a : String) :
    List.Perm ((l ++ [a]).erase a) l := by
  have h1 : List.Perm ((l ++ [a]).erase a) ((a :: l).erase a) :=
    (List.perm_append_singleton a l).erase a
  rwa [List.erase_cons_head] at h1

/-- Removal of the optional secondary TAP name during compensation. -/
def dropTapInt (ifaces : List String) : Option String → List String
  | some t => ifaces.filter fun n => n != t
  | none => ifaces

/-- In the `Popen`-failure branch, `spawn_launch` removes the primary and
secondary TAP names from the host it received and closes the log it had
just opened; the overlay it received is untouched. -/
lemma spawn_launch_popen {st : MState} {fid : String} {env : SpawnEnv}
    {fw : Fw} {tap mac : String} {h4 : Host} {ov ti mi : Option String}
    {st' : MState}
    (h : spawn_launch st fid env fw tap mac h4 ov ti mi = .error (.popenFailed, st')) :
    st'.host.ifaces = dropTapInt (h4.ifaces.filter (fun n => n != tap)) ti ∧
    st'.host.openLogs.Perm h4.openLogs ∧
    st'.host.overlays = h4.overlays := by
  simp only [spawn_launch] at h
  repeat' split at h
  all_goals simp_all [destroy_tap, dropTapInt]
  all_goals (rw [← h]; exact ⟨rfl, erase_append_perm _ _, rfl⟩)

/-- Popen-failure restoration at the `spawn_finish` level: relative to the
host state `h2` that entered the file checks, the interface list is
restored up to removal of the secondary TAP name and the log list is
restored. -/
lemma spawn_finish_popen {st : MState} {fid : String} {env : SpawnEnv}
    {fw : Fw} {tap mac : String} {h2 : Host} {ti mi : Option String}
    {st' : MState}
    (h : spawn_finish st fid env fw tap mac h2 ti mi = .error (.popenFailed, st')) :
    st'.host.ifaces = dropTapInt h2.ifaces ti ∧
    st'.host.openLogs.Perm h2.openLogs := by
  simp only [spawn_finish] at h
  repeat' split at h
  all_goals try simp_all
  all_goals
    (rename create_tap _ _ _ = some _ => hct
     obtain ⟨hc3, hnotin⟩ := create_tap_some hct
     subst hc3
     obtain ⟨hif, hlog, hovl⟩ := spawn_launch_popen h
     rw [filter_ne_append hnotin] at hif
     exact ⟨hif, hlog⟩)

/-- Popen-failure restoration at the `spawn_instance` level: the interface
list and (up to permutation) the open-log list return to their pre-call
values. -/
lemma spawn_popen_restore {lib : List Entry} {st : MState} {fid : String}
    {env : SpawnEnv} {st' : MState}
    (h : spawn_instance lib st fid env = .error (.popenFailed, st')) :
    st'.host.ifaces = st.host.ifaces ∧ st'.host.openLogs.Perm st.host.openLogs := by
  simp only [spawn_instance] at h
  repeat' split at h
  all_goals try simp_all
  all_goals first
    | -- single-homed branches: the finish host is the pre-call host
      (obtain ⟨hif, hlog⟩ := spawn_finish_popen h
       exact ⟨hif, hlog⟩)
    | -- multi-homed branches: the secondary TAP is also removed
      (rename ensure_internal_bridge _ _ = some _ => hens
       rename create_tap _ _ _ = some _ => hct
       obtain ⟨hif1, hlog1, _, _⟩ := ensure_bridge_some hens
       obtain ⟨hc2, hnotin⟩ := create_tap_some hct
       subst hc2
       obtain ⟨hif, hlog⟩ := spawn_finish_popen h
       simp only [dropTapInt] at hif
       rw [hlog1] at hlog
       rw [hif1] at hif hnotin
       rw [filter_ne_append hnotin] at hif
       exact ⟨hif, hlog⟩)

/-- Effect oracle with every host command succeeding except overlay
creation. -/
def envOvFail : SpawnEnv := { envAll "00000001" 100 with overlayOk := false }

/-- Post-state of the overlay-failure spawn. -/
def c1failSt : MState := errSt (spawn_instance libLin stLin "fw1" envOvFail)

/-- Claim C1 is false as stated: when overlay creation fails — a step
after host mutation began — the originating error propagates but the
primary TAP `tap0` is *not* destroyed (no compensation runs outside the
`Popen` branch), so not all partial state is reversed. -/
theorem c1_counterexample :
    spawn_instance libLin stLin "fw1" envOvFail
      = .error (.overlayFailed, c1failSt) ∧
    c1failSt.host.ifaces = ["tap0"] ∧
    stLin.host.ifaces = [] := by
  exact ⟨rfl, rfl, rfl⟩

/-- Claim C1 amended: every failing `spawn_instance` call re-raises the
originating error with the active map unchanged, but compensation runs
only in the child-spawn (`Popen`) failure branch — there the log file is
closed and the primary and secondary TAPs are destroyed (the overlay
file is *not* unlinked); failures in TAP creation, overlay creation,
command build or log open propagate without undoing earlier host
mutations. -/
theorem c1_amended (lib : List Entry) (st : MState) (fid : String)
    (env : SpawnEnv) (e : SpawnErr) (st' : MState)
    (h : spawn_instance lib st fid env = .error (e, st')) :
    st'.active = st.active ∧
    (e = .popenFailed →
      st'.host.ifaces = st.host.ifaces ∧
      st'.host.openLogs.Perm st.host.openLogs) :=
  ⟨spawn_err_active h, fun hp => spawn_popen_restore (hp ▸ h)⟩

/-- Effect oracle failing exactly at the child spawn. -/
def envPoFail : SpawnEnv := { envAll "00000001" 100 with popenOk := false }

/-- Post-state of the Popen-failure spawn. -/
def c1poSt : MState := errSt (spawn_instance libLin stLin "fw1" envPoFail)

/-- Witness for the amended C1 at the concrete Popen-failure spawn. -/
theorem c1_amended_witness :
    c1poSt.active = stLin.active ∧
    (SpawnErr.popenFailed = SpawnErr.popenFailed →
      c1poSt.host.ifaces = stLin.host.ifaces ∧
      c1poSt.host.openLogs.Perm stLin.host.openLogs) :=
  c1_amended libLin stLin "fw1" envPoFail .popenFailed c1poSt rfl

/-- The multi-homed mipsel config. -/
def cfgMH : Cfg := { cfgLin with id := "mh", multi_homed := true }

/-- Library holding only the multi-homed config. -/
def libMH : List Entry := [⟨"lib/b", cfgMH⟩]

/-- Host for the failing input of C2: the rootfs exists but the kernel
file `lib/b/k.img` does not. -/
def hostMHbad : Host :=
  { ifaces := [], brInternal := false, files := ["lib/b/r.qcow2"],
    openLogs := [], overlays := [] }

/-- Fresh manager over `hostMHbad`. -/
def stMHbad : MState := { host := hostMHbad, active := [] }

/-- Post-state of the failing multi-homed spawn. -/
def c2failSt : MState := errSt (spawn_instance libMH stMHbad "mh" (envAll "00000001" 100))

/-- Claim C2 is right and the code wrong (its own comment says "Validate
files exist before touching the network"): for a multi-homed descriptor
whose kernel file is missing, `spawn_instance` creates the internal
bridge and the secondary TAP `tap0_int` *before* the file-existence
check, raises NotFound, and leaves both behind; the active map is
unchanged. -/
theorem c2_file_check_bug :
    spawn_instance libMH stMHbad "mh" (envAll "00000001" 100)
      = .error (.fileMissing "lib/b/k.img", c2failSt) ∧
    c2failSt.host.ifaces = ["tap0_int"] ∧
    c2failSt.host.brInternal = true ∧
    stMHbad.host.ifaces = [] ∧
    stMHbad.host.brInternal = false ∧
    c2failSt.active = stMHbad.active := by
  exact ⟨rfl, rfl, rfl, rfl, rfl, rfl⟩

/-! ### Spawn success shape, table invariants (C5, C6) -/

/-- The liveness test of the SoC-MAC guard. -/
def aliveM3 (i : Inst) : Bool := i.arch == "cortex-m3" && i.procAlive

/-- A successful `spawn_launch` registers exactly one new instance. -/
lemma spawn_launch_ok {st : MState} {fid : String} {env : SpawnEnv}
    {fw : Fw} {tap mac : String} {h4 : Host} {ov ti mi : Option String}
    {rid : String} {st' : MState}
    (h : spawn_launch st fid env fw tap mac h4 ov ti mi = .ok (rid, st')) :
    ∃ inst : Inst, st'.active = dictInsert st.active inst ∧
      inst.arch = fw.arch ∧ inst.procAlive = true ∧ inst.mac = mac := by
  simp only [spawn_launch] at h
  repeat' split at h
  all_goals try simp_all
  all_goals (obtain ⟨_, hst⟩ := h; exact ⟨_, by rw [← hst], rfl, rfl, rfl⟩)

/-- A successful `spawn_finish` registers exactly one new instance. -/
lemma spawn_finish_ok {st : MState} {fid : String} {env : SpawnEnv}
    {fw : Fw} {tap mac : String} {h2 : Host} {ti mi : Option String}
    {rid : String} {st' : MState}
    (h : spawn_finish st fid env fw tap mac h2 ti mi = .ok (rid, st')) :
    ∃ inst : Inst, st'.active = dictInsert st.active inst ∧
      inst.arch = fw.arch ∧ inst.procAlive = true ∧ inst.mac = mac := by
  simp only [spawn_finish] at h
  repeat' split at h
  all_goals first
    | (exact spawn_launch_ok h)
    | simp_all

/-- Shape of a successful spawn: the firmware was found, one instance was
registered alive with the architecture of the descriptor and the MAC the
source picked, and for cortex-m3 the table held no alive cortex-m3. -/
lemma spawn_ok_shape {lib : List Entry} {st : MState} {fid : String}
    {env : SpawnEnv} {rid : String} {st' : MState}
    (h : spawn_instance lib st fid env = .ok (rid, st')) :
    ∃ (fw : Fw) (inst : Inst), load_firmware lib fid = some fw ∧
      st'.active = dictInsert st.active inst ∧
      inst.arch = fw.arch ∧ inst.procAlive = true ∧
      (fw.arch = "cortex-m3" → inst.mac = STELLARIS_MAC) ∧
      (fw.arch ≠ "cortex-m3" → inst.mac = mkMac env.macA env.macB env.macC) ∧
      (fw.arch = "cortex-m3" → st.active.countP aliveM3 = 0) := by
  simp only [spawn_instance] at h
  repeat' split at h
  all_goals first
    | (exact absurd h (by simp))
    | (rename load_firmware _ _ = some _ => hload
       rename _ = none => hguard
       obtain ⟨inst, hact, harch, halive, hmac⟩ := spawn_finish_ok h
       first
        | -- cortex-m3 leaves
          (rename (_ == ("cortex-m3" : String)) = true => hbeq
           have harch3 : _ = "cortex-m3" := beq_iff_eq.mp hbeq
           simp only [hbeq, if_true] at hguard
           refine ⟨_, inst, hload, hact, harch, halive,
             fun _ => hmac, fun hne => absurd harch3 hne, fun _ => ?_⟩
           refine List.countP_eq_zero.mpr fun a ha => ?_
           have := List.find?_eq_none.mp hguard a ha
           simpa [aliveM3] using this)
        | -- non-cortex-m3 leaves
          (rename ¬ ((_ == ("cortex-m3" : String)) = true) => hbeq
           have harch3 : ¬ _ = "cortex-m3" := fun hx => hbeq (beq_iff_eq.mpr hx)
           exact ⟨_, inst, hload, hact, harch, halive,
             fun hx => absurd hx harch3, fun _ => hmac, fun hx => absurd hx harch3⟩))

lemma mem_dictInsert {l : List Inst} {inst x : Inst}
    (hx : x ∈ dictInsert l inst) : x ∈ l ∨ x = inst := by
  unfold dictInsert at hx
  split at hx
  · rcases List.mem_map.mp hx with ⟨i, hi, hmap⟩
    by_cases hb : (i.id == inst.id) = true
    · rw [if_pos hb] at hmap
      exact Or.inr hmap.symm
    · rw [if_neg hb] at hmap
      exact Or.inl (hmap ▸ hi)
  · rcases List.mem_append.mp hx with hmem | hmem
    · exact Or.inl hmem
    · exact Or.inr (List.mem_singleton.mp hmem)

lemma ids_dictInsert_nodup {l : List Inst} {inst : Inst}
    (hnd : (l.map fun i => i.id).Nodup) :
    ((dictInsert l inst).map fun i => i.id).Nodup := by
  unfold dictInsert
  split
  · have hids : ((l.map fun i => if i.id == inst.id then inst else i).map fun i => i.id)
        = l.map fun i => i.id := by
      rw [List.map_map]
      refine List.map_congr_left fun i _ => ?_
      by_cases hb : i.id = inst.id
      · simp [Function.comp_apply, hb]
      · simp [Function.comp_apply, hb]
    rw [hids]
    exact hnd
  · rename_i hany
    rw [List.map_append]
    refine List.Nodup.append hnd (List.nodup_singleton _) ?_
    intro a ha hb
    rcases List.mem_map.mp ha with ⟨i, hi, rfl⟩
    have hne : ¬ (i.id == inst.id) = true := fun hbeq =>
      hany (List.any_eq_true.mpr ⟨i, hi, hbeq⟩)
    rw [List.mem_singleton.mp hb] at hne
    exact hne (beq_iff_eq.mpr rfl)

lemma countP_map_replace_le {l : List Inst} {inst : Inst}
    (hni : aliveM3 inst = false) :
    ((l.map fun i => if i.id == inst.id then inst else i).countP aliveM3)
      ≤ l.countP aliveM3 := by
  induction l with
  | nil => simp
  | cons a t ih =>
    simp only [List.map_cons, List.countP_cons]
    by_cases hb : (a.id == inst.id) = true
    · rw [if_pos hb, hni]
      simp only [Bool.false_eq_true, if_false]
      omega
    · rw [if_neg hb]
      omega

lemma countP_replace_of_zero {l : List Inst} {inst : Inst}
    (hnd : (l.map fun i => i.id).Nodup) (h0 : l.countP aliveM3 = 0) :
    ((l.map fun i => if i.id == inst.id then inst else i).countP aliveM3)
      ≤ if aliveM3 inst then 1 else 0 := by
  induction l with
  | nil => simp
  | cons a t ih =>
    rw [List.map_cons, List.nodup_cons] at hnd
    have h0' : t.countP aliveM3 = 0 ∧ aliveM3 a = false := by
      simp only [List.countP_cons] at h0
      by_cases hh : aliveM3 a = true
      · rw [hh] at h0
        simp at h0
      · have hh' : aliveM3 a = false := by simpa using hh
        rw [hh'] at h0
        simp only [Bool.false_eq_true, if_false] at h0
        exact ⟨by omega, hh'⟩
    simp only [List.map_cons, List.countP_cons]
    by_cases hb : (a.id == inst.id) = true
    · have htail : (t.map fun i => if i.id == inst.id then inst else i) = t := by
        have hmc : (t.map fun i => if i.id == inst.id then inst else i) = t.map id :=
          List.map_congr_left fun i hi => by
            have hne : i.id ≠ inst.id := fun hxz =>
              hnd.1 (beq_iff_eq.mp hb ▸ hxz ▸ List.mem_map_of_mem _ hi)
            rw [if_neg (by simpa using hne)]
            rfl
        rw [hmc, List.map_id]
      rw [if_pos hb, htail, h0'.1]
      by_cases hia : aliveM3 inst = true <;> simp [hia]
    · rw [if_neg hb, h0'.2]
      have := ih hnd.2 h0'.1
      simp only [Bool.false_eq_true, if_false]
      omega

lemma countP_dictInsert_le {l : List Inst} {inst : Inst}
    (hnd : (l.map fun i => i.id).Nodup)
    (hle : l.countP aliveM3 ≤ 1)
    (hguard : aliveM3 inst = true → l.countP aliveM3 = 0) :
    (dictInsert l inst).countP aliveM3 ≤ 1 := by
  by_cases ha : aliveM3 inst = true
  · have h0 := hguard ha
    unfold dictInsert
    split
    · exact le_trans (countP_replace_of_zero hnd h0) (by simp [ha])
    · rw [List.countP_append, h0, List.countP_cons]
      simp [ha]
  · have ha' : aliveM3 inst = false := by simpa using ha
    unfold dictInsert
    split
    · exact le_trans (countP_map_replace_le ha') hle
    · rw [List.countP_append, List.countP_cons, ha']
      simp only [List.countP_nil, Bool.false_eq_true, if_false]
      omega

lemma countP_map_le_of_pointwise {l : List Inst} {f : Inst → Inst}
    (hf : ∀ i, aliveM3 (f i) = true → aliveM3 i = true) :
    (l.map f).countP aliveM3 ≤ l.countP aliveM3 := by
  induction l with
  | nil => simp
  | cons a t ih =>
    simp only [List.map_cons, List.countP_cons]
    by_cases hfa : aliveM3 (f a) = true
    · rw [hfa, hf a hfa]
      omega
    · have hfa' : aliveM3 (f a) = false := by simpa using hfa
      rw [hfa']
      simp only [Bool.false_eq_true, if_false]
      omega

lemma ids_map_of_id_pres {l : List Inst} {f : Inst → Inst}
    (hf : ∀ i, (f i).id = i.id) :
    ((l.map f).map fun i => i.id) = l.map fun i => i.id := by
  rw [List.map_map]
  exact List.map_congr_left fun i _ => hf i

/-- Case analysis for the state left by `stop_instance`. -/
lemma stop_active_cases (s : MState) (rid : String) :
    (stop_instance s rid).2.active = s.active ∨
    (stop_instance s rid).2.active = s.active.eraseP fun i => i.id == rid := by
  unfold stop_instance
  split
  · exact Or.inl rfl
  · exact Or.inr rfl

/-- Invariant carried through every reachable state for C5: run ids are
distinct and at most one table entry is an alive cortex-m3 instance. -/
lemma reach_inv5 {lib : List Entry} {s : MState} (h : Reach lib s) :
    ((s.active.map fun i => i.id).Nodup) ∧ s.active.countP aliveM3 ≤ 1 := by
  induction h with
  | init h => exact ⟨List.nodup_nil, by simp⟩
  | spawnOk hr hs ih =>
    obtain ⟨fw, inst, _, hact, harch, halive, _, _, hguard⟩ := spawn_ok_shape hs
    rw [hact]
    refine ⟨ids_dictInsert_nodup ih.1, ?_⟩
    refine countP_dictInsert_le ih.1 ih.2 fun ha => ?_
    have hm3 : inst.arch = "cortex-m3" := by
      have := (Bool.and_eq_true _ _).mp ha
      exact beq_iff_eq.mp this.1
    exact hguard (harch ▸ hm3)
  | spawnErr hr hs ih => rw [spawn_err_active hs]; exact ih
  | stop rid hr ih =>
    rcases stop_active_cases _ rid with hcase | hcase <;> rw [hcase]
    · exact ih
    · exact ⟨ih.1.sublist ((List.eraseP_sublist _).map _),
        le_trans ((List.eraseP_sublist _).countP_le _) ih.2⟩
  | procExit p hr ih =>
    have hid : ∀ i : Inst,
        (if (i.pid == p) = true then { i with procAlive := false } else i).id = i.id :=
      fun i => by by_cases hb : (i.pid == p) = true <;> simp [hb]
    have halive : ∀ i : Inst,
        aliveM3 (if (i.pid == p) = true then { i with procAlive := false } else i) = true →
        aliveM3 i = true := fun i hi => by
      by_cases hb : (i.pid == p) = true
      · rw [if_pos hb] at hi
        simp [aliveM3] at hi
      · rwa [if_neg hb] at hi
    simp only [markExit]
    exact ⟨by rw [ids_map_of_id_pres hid]; exact ih.1,
      le_trans (countP_map_le_of_pointwise halive) ih.2⟩
  | refresh le li hr ih =>
    have hext : ∀ (L : List String) (i : Inst), aliveM3 (refreshExt L i) = aliveM3 i := by
      intro L i
      unfold aliveM3
      rw [(refreshExt_ip_fields L i).2.2.1, (refreshExt_ip_fields L i).2.2.2.1]
    have hint : ∀ (L : List String) (i : Inst), aliveM3 (refreshInt L i) = aliveM3 i := by
      intro L i
      unfold aliveM3
      rw [(refreshInt_fields L i).2.2.2.1, (refreshInt_fields L i).2.2.2.2.1]
    cases le <;> cases li <;> simp only [refresh_ips]
    · exact ih
    · refine ⟨?_, ?_⟩
      · rw [ids_map_of_id_pres fun i => (refreshInt_fields _ i).2.2.1]
        exact ih.1
      · exact le_trans
          (countP_map_le_of_pointwise fun i hi => by rwa [hint] at hi) ih.2
    · refine ⟨?_, ?_⟩
      · rw [ids_map_of_id_pres fun i => (refreshExt_ip_fields _ i).2.1]
        exact ih.1
      · exact le_trans
          (countP_map_le_of_pointwise fun i hi => by rwa [hext] at hi) ih.2
    · refine ⟨?_, ?_⟩
      · rw [ids_map_of_id_pres fun i => (refreshInt_fields _ i).2.2.1,
          ids_map_of_id_pres fun i => (refreshExt_ip_fields _ i).2.1]
        exact ih.1
      · exact le_trans
          (countP_map_le_of_pointwise fun i hi => by rwa [hint] at hi)
          (le_trans (countP_map_le_of_pointwise fun i hi => by rwa [hext] at hi) ih.2)

/-- Every software-generated MAC carries the QEMU OUI `52:54:00:`. -/
lemma mkMac_take9 (a b c : Nat) :
    (mkMac a b c).data.take 9 = ("52:54:00:").data := rfl

/-- MAC bookkeeping invariant for C6: cortex-m3 instances carry the fixed
SoC MAC, all others carry a `52:54:00:`-prefixed generated MAC. -/
lemma reach_macInv {lib : List Entry} {s : MState} (h : Reach lib s) :
    ∀ i ∈ s.active,
      (i.arch = "cortex-m3" → i.mac = STELLARIS_MAC) ∧
      (i.arch ≠ "cortex-m3" → i.mac.data.take 9 = ("52:54:00:").data) := by
  induction h with
  | init h => intro i hi; exact absurd hi (List.not_mem_nil i)
  | spawnOk hr hs ih =>
    obtain ⟨fw, inst, _, hact, harch, _, hm3, hnm3, _⟩ := spawn_ok_shape hs
    rw [hact]
    intro i hi
    rcases mem_dictInsert hi with hi | rfl
    · exact ih i hi
    · constructor
      · intro hia
        exact hm3 (harch ▸ hia)
      · intro hia
        rw [hnm3 (harch ▸ hia)]
        exact mkMac_take9 _ _ _
  | spawnErr hr hs ih => rw [spawn_err_active hs]; exact ih
  | stop rid hr ih =>
    rcases stop_active_cases _ rid with hcase | hcase <;> rw [hcase]
    · exact ih
    · exact fun i hi => ih i ((List.eraseP_sublist _).subset hi)
  | procExit p hr ih =>
    intro i hi
    simp only [markExit] at hi
    rcases List.mem_map.mp hi with ⟨j, hj, rfl⟩
    have hj' := ih j hj
    by_cases hb : (j.pid == p) = true
    · rw [if_pos hb]
      exact hj'
    · rw [if_neg hb]
      exact hj'
  | refresh le li hr ih =>
    have hstep : ∀ (a : List Inst),
        (∀ i ∈ a, (i.arch = "cortex-m3" → i.mac = STELLARIS_MAC) ∧
          (i.arch ≠ "cortex-m3" → i.mac.data.take 9 = ("52:54:00:").data)) →
        ∀ (f : Inst → Inst),
        (∀ i, (f i).arch = i.arch) → (∀ i, (f i).mac = i.mac) →
        ∀ i ∈ a.map f, (i.arch = "cortex-m3" → i.mac = STELLARIS_MAC) ∧
          (i.arch ≠ "cortex-m3" → i.mac.data.take 9 = ("52:54:00:").data) := by
      intro a ha f hfa hfm i hi
      rcases List.mem_map.mp hi with ⟨j, hj, rfl⟩
      rw [hfa j]
      constructor
      · intro h3
        rw [hfm j]
        exact (ha j hj).1 h3
      · intro h3
        rw [hfm j]
        exact (ha j hj).2 h3
    cases le <;> cases li <;> simp only [refresh_ips]
    · exact ih
    · exact hstep _ ih _ (fun i => (refreshInt_fields _ i).2.2.2.1)
        (fun i => (refreshInt_fields _ i).2.1)
    · exact hstep _ ih _ (fun i => (refreshExt_ip_fields _ i).2.2.1)
        (fun i => (refreshExt_ip_fields _ i).1)
    · exact hstep _ (hstep _ ih _ (fun i => (refreshExt_ip_fields _ i).2.2.1)
        (fun i => (refreshExt_ip_fields _ i).1)) _
        (fun i => (refreshInt_fields _ i).2.2.2.1)
        (fun i => (refreshInt_fields _ i).2.1)

/-- State with a single alive cortex-m3 instance registered. -/
def stM3 : MState := { host := hostM3, active := [] }

/-- After the first cortex-m3 spawn. -/
def c5s1 : MState := errSt (spawn_instance libM3 stM3 "m3" (envAll "00000001" 100))

/-- The first cortex-m3 guest has exited; the entry stays in the table. -/
def c5s2 : MState := markExit c5s1 100

/-- After the second cortex-m3 spawn, accepted because the first child is
no longer alive. -/
def c5s3 : MState := errSt (spawn_instance libM3 c5s2 "m3" (envAll "00000002" 101))

/-- Claim C5 is false as stated: the reachable state `c5s3` — spawn a
cortex-m3 device, let its child exit, spawn another — holds *two*
cortex-m3 instances in the active table, and the second spawn succeeded
rather than failing with Conflict. -/
theorem c5_counterexample :
    Reach libM3 c5s3 ∧
    c5s3.active.map (fun i => i.arch) = ["cortex-m3", "cortex-m3"] ∧
    c5s3.active.map (fun i => i.id) = ["m3_00000001", "m3_00000002"] := by
  refine ⟨?_, by decide, by decide⟩
  have h1 : spawn_instance libM3 stM3 "m3" (envAll "00000001" 100)
      = .ok ("m3_00000001", c5s1) := rfl
  have h2 : spawn_instance libM3 c5s2 "m3" (envAll "00000002" 101)
      = .ok ("m3_00000002", c5s3) := rfl
  exact Reach.spawnOk (Reach.procExit 100 (Reach.spawnOk (Reach.init hostM3) h1)) h2

/-- Claim C5 amended: at every reachable manager state at most one
*alive* instance in the active table has `arch == cortex-m3`, and a
cortex-m3 spawn fails with Conflict — naming the blocking instance's
run id and leaving the state unchanged — exactly when the table already
contains an alive cortex-m3 instance (a dead cortex-m3 entry does not
block, so the table may hold several cortex-m3 entries of which at most
one is alive). -/
theorem c5_amended :
    (∀ (lib : List Entry) (s : MState), Reach lib s →
        s.active.countP aliveM3 ≤ 1) ∧
    (∀ (lib : List Entry) (st : MState) (fid : String) (env : SpawnEnv)
        (fw : Fw) (j : Inst),
      load_firmware lib fid = some fw → fw.arch = "cortex-m3" →
      st.active.find? (fun i => i.arch == "cortex-m3" && i.procAlive) = some j →
      spawn_instance lib st fid env = .error (.conflict j.id, st)) := by
  refine ⟨fun lib s h => (reach_inv5 h).2, ?_⟩
  intro lib st fid env fw j hload harch hfind
  simp [spawn_instance, hload, harch, hfind]

/-- The one firmware in `libM3`, with its `_dir`. -/
def fwM3full : Fw := { toCfg := cfgM3, dir := "lib/c" }

/-- The instance registered by the first cortex-m3 spawn. -/
def instM3w : Inst :=
  { id := "m3_00000001", firmware_id := "m3", arch := "cortex-m3", name := "m3",
    pid := 100, tap := "tap0", mac := STELLARIS_MAC, ip := "pending",
    ip_internal := none, tap_internal := none, mac_internal := none,
    multi_homed := false, log := "logs/qemu-m3_00000001.log", procAlive := true,
    overlay := none }

/-- Witness for the amended C5: the count bound at a fresh state, and the
Conflict with the blocking run id at a state holding an alive cortex-m3. -/
theorem c5_amended_witness :
    stM3.active.countP aliveM3 ≤ 1 ∧
    spawn_instance libM3 c5s1 "m3" (envAll "00000002" 101)
      = .error (.conflict "m3_00000001", c5s1) := by
  constructor
  · exact c5_amended.1 libM3 stM3 (Reach.init hostM3)
  · exact c5_amended.2 libM3 c5s1 "m3" (envAll "00000002" 101) fwM3full instM3w
      rfl rfl rfl

/-- Claim C6 is false as stated: the random MAC generator is never
deduplicated against active instances, so with the RNG returning the
same bytes twice the reachable state `c4s2` holds two distinct mipsel
instances (different run ids, neither cortex-m3) with equal MACs. -/
theorem c6_counterexample :
    Reach libLin c4s2 ∧
    c4s2.active.map (fun i => i.mac) = ["52:54:00:01:02:03", "52:54:00:01:02:03"] ∧
    c4s2.active.map (fun i => i.arch) = ["mipsel", "mipsel"] ∧
    c4s2.active.map (fun i => i.id) = ["fw1_00000001", "fw1_00000002"] := by
  refine ⟨?_, by decide, by decide, by decide⟩
  have h1 : spawn_instance libLin stLin "fw1" (envAll "00000001" 100)
      = .ok ("fw1_00000001", c4s1) := rfl
  have h2 : spawn_instance libLin c4s1 "fw1" (envAll "00000002" 101)
      = .ok ("fw1_00000002", c4s2) := rfl
  exact Reach.spawnOk (Reach.spawnOk (Reach.init hostLin) h1) h2

/-- Claim C6 amended: for every pair of active instances of which exactly
one is cortex-m3, the MACs differ (the fixed SoC MAC is outside the
generated `52:54:00:` range); between two non-cortex-m3 instances the
MACs are independently random and the code does not enforce their
distinctness, so they may coincide. -/
theorem c6_amended (lib : List Entry) (s : MState) (h : Reach lib s)
    (i j : Inst) (hi : i ∈ s.active) (hj : j ∈ s.active)
    (hia : i.arch = "cortex-m3") (hja : j.arch ≠ "cortex-m3") :
    i.mac ≠ j.mac := by
  have hinv := reach_macInv h
  have h1 : i.mac = STELLARIS_MAC := (hinv i hi).1 hia
  have h2 : j.mac.data.take 9 = ("52:54:00:").data := (hinv j hj).2 hja
  intro heq
  rw [← heq, h1] at h2
  exact absurd h2 (by decide)

/-- Mixed library: one mipsel Linux firmware and one cortex-m3 firmware. -/
def libMix : List Entry := [⟨"lib/a", cfgLin⟩, ⟨"lib/c", cfgM3⟩]

/-- Host with the files of both firmwares present. -/
def hostMix : Host :=
  { ifaces := [], brInternal := false,
    files := ["lib/a/k.img", "lib/a/r.qcow2", "lib/c/z.bin"],
    openLogs := [], overlays := [] }

/-- After spawning the cortex-m3 firmware on the mixed lab. -/
def c6w1 : MState := errSt (spawn_instance libMix { host := hostMix, active := [] } "m3" (envAll "00000001" 100))

/-- After additionally spawning the mipsel firmware. -/
def c6w2 : MState := errSt (spawn_instance libMix c6w1 "fw1" (envAll "00000002" 101))

/-- The mipsel instance registered by the second spawn on the mixed lab. -/
def instLinW : Inst :=
  { id := "fw1_00000002", firmware_id := "fw1", arch := "mipsel", name := "Device",
    pid := 101, tap := "tap1", mac := "52:54:00:01:02:03", ip := "pending",
    ip_internal := none, tap_internal := none, mac_internal := none,
    multi_homed := false, log := "logs/qemu-fw1_00000002.log", procAlive := true,
    overlay := some "overlays/fw1_00000002.qcow2" }

/-- Witness for the amended C6 at a reachable mixed state. -/
theorem c6_amended_witness : instM3w.mac ≠ instLinW.mac := by
  have h0 : Reach libMix { host := hostMix, active := [] } := Reach.init hostMix
  have h1 : spawn_instance libMix { host := hostMix, active := [] } "m3"
      (envAll "00000001" 100) = .ok ("m3_00000001", c6w1) := rfl
  have h2 : spawn_instance libMix c6w1 "fw1" (envAll "00000002" 101)
      = .ok ("fw1_00000002", c6w2) := rfl
  exact c6_amended libMix c6w2 (Reach.spawnOk (Reach.spawnOk h0 h1) h2)
    instM3w instLinW (by decide) (by decide) rfl (by decide)

end IotVlab
